import Mathlib

/-!
Verification of the base-table virtualization engine of `react-table-modify`
(`src/packages/ali-react-table/src/base-table/empty.tsx`).

The development shallowly embeds the parts of the code the claims are about:

* `getHorizontalRenderRange` (column windowing, src lines 337-381);
* the span clipping/registration logic of `renderCell` (src lines 496-563)
  together with a model of `SpanManager` (its implementation lives in
  `helpers/SpanManager`, which is not part of the source tree; it is modelled
  from the specification);
* the viewport hysteresis pipeline (`initSubscriptions`, src lines 740-764,
  and `updateOffsetX`, src lines 289-295);
* the subscription lifecycle (`initSubscriptions` / `componentWillUnmount`);
* the `EmptyTable` component (src lines 24-53).

Pixel quantities and span arithmetic are modelled as `Int` (JavaScript integer
arithmetic on the inputs considered); list indices are `Nat`.
-/

/-- `HorizontalRenderRange` (src `interfaces`): the half-open window
`[leftIndex, rightIndex)` of center columns to materialize, plus the pixel
widths of the collapsed regions on either side. -/
structure HorizontalRenderRange where
  leftIndex : Nat
  leftBlank : Int
  rightIndex : Nat
  rightBlank : Int
deriving DecidableEq, Repr

/-- The flat column groups of `BaseTableState.flat`: each column is represented
by its pixel width. -/
structure FlatCols where
  left : List Int
  center : List Int
  right : List Int
deriving DecidableEq, Repr

/-- Modelled from the spec: `flat.full` is built by `getDerivedStateFromProps`
(not under `src/`); per the spec the table is composed of the fixed-left group,
the center group and the fixed-right group, in that order. -/
def FlatCols.full (f : FlatCols) : List Int := f.left ++ f.center ++ f.right

/-- Modelled from the spec: `sum` from `base-table/utils` (not under `src/`),
the sum of a list of numbers ("`rightBlank` = sum of remaining column
widths"). -/
def sum (xs : List Int) : Int := xs.sum

/-- Common shape of the two `while` loops of `getHorizontalRenderRange`
(src lines 350-358 and 363-371): starting from the current position, advance
over the remaining columns while `col.width + acc < threshold` holds,
accumulating widths into `acc`.  The loop index is represented by the remaining
suffix of the column list; the result is the number of columns consumed
together with the final accumulator. -/
def accumWhileLt (threshold : Int) : List Int → Int → Nat × Int
  | [], acc => (0, acc)
  | w :: rest, acc =>
    if w + acc < threshold then
      ((accumWhileLt threshold rest (acc + w)).1 + 1,
        (accumWhileLt threshold rest (acc + w)).2)
    else
      (0, acc)

/-- The virtualization-enabled branch of `getHorizontalRenderRange`
(src lines 344-380):

* first loop: skip center columns while `col.width + leftBlank <
  overscannedOffsetX`, where `overscannedOffsetX = max(0, offsetX -
  OVERSCAN_SIZE)`, yielding `leftIndex` and `leftBlank`;
* second loop: starting at `leftIndex`, include center columns while
  `col.width + centerRenderWidth < minCenterRenderWidth`, where
  `minCenterRenderWidth = maxRenderWidth + (overscannedOffsetX - leftBlank) +
  2 * OVERSCAN_SIZE`;
* `rightBlank` is the sum of the widths of the trailing `rightBlankCount`
  center columns (`flat.center.slice(flat.center.length - rightBlankCount)`;
  in this model the columns are already widths, so the `.map` projecting the
  width is the identity).

`OVERSCAN_SIZE` is a constant from `base-table/utils` (not under `src/`); the
function is parameterized by it (`overscan`). -/
def getHorizontalRenderRangeVirtual (center : List Int)
    (offsetX maxRenderWidth overscan : Int) : HorizontalRenderRange :=
  let overscannedOffsetX := max 0 (offsetX - overscan)
  let leftIndex := (accumWhileLt overscannedOffsetX center 0).1
  let leftBlank := (accumWhileLt overscannedOffsetX center 0).2
  let minCenterRenderWidth := maxRenderWidth + (overscannedOffsetX - leftBlank) + 2 * overscan
  let centerCount := (accumWhileLt minCenterRenderWidth (center.drop leftIndex) 0).1
  let rightBlankCount := center.length - leftIndex - centerCount
  let rightBlank := sum (center.drop (center.length - rightBlankCount))
  { leftIndex := leftIndex
    leftBlank := leftBlank
    rightIndex := leftIndex + centerCount
    rightBlank := rightBlank }

/-- The slice of `BaseTableState` read by `getHorizontalRenderRange`
(src line 338): `offsetX`, `maxRenderWidth`, `useVirtual.horizontal` and the
flat column groups. -/
structure BaseTableHozState where
  offsetX : Int
  maxRenderWidth : Int
  useVirtualHorizontal : Bool
  flat : FlatCols
deriving Repr

/-- `getHorizontalRenderRange` (src lines 337-381).  When horizontal
virtualization is disabled it returns
`{ leftIndex: 0, leftBlank: 0, rightIndex: flat.full.length, rightBlank: 0 }`
(src line 341); otherwise it runs the windowing algorithm over
`flat.center`. -/
def getHorizontalRenderRange (s : BaseTableHozState) (overscan : Int) :
    HorizontalRenderRange :=
  if s.useVirtualHorizontal = false then
    { leftIndex := 0, leftBlank := 0, rightIndex := s.flat.full.length, rightBlank := 0 }
  else
    getHorizontalRenderRangeVirtual s.flat.center s.offsetX s.maxRenderWidth overscan

theorem accumWhileLt_fst_le (threshold : Int) (cols : List Int) (acc : Int) :
    (accumWhileLt threshold cols acc).1 ≤ cols.length := by
  induction cols generalizing acc with
  | nil => simp [accumWhileLt]
  | cons w rest ih =>
    by_cases h : w + acc < threshold
    · simp only [accumWhileLt, if_pos h, List.length_cons]
      exact Nat.succ_le_succ (ih (acc + w))
    · simp [accumWhileLt, if_neg h]

theorem accumWhileLt_snd (threshold : Int) (cols : List Int) (acc : Int) :
    (accumWhileLt threshold cols acc).2
      = acc + (cols.take (accumWhileLt threshold cols acc).1).sum := by
  induction cols generalizing acc with
  | nil => simp [accumWhileLt]
  | cons w rest ih =>
    by_cases h : w + acc < threshold
    · simp only [accumWhileLt, if_pos h, List.take_succ_cons, List.sum_cons]
      rw [ih (acc + w)]
      ring
    · simp [accumWhileLt, if_neg h]

theorem accumWhileLt_lt (threshold : Int) (cols : List Int) (acc : Int) :
    ∀ j < (accumWhileLt threshold cols acc).1,
      acc + (cols.take (j + 1)).sum < threshold := by
  induction cols generalizing acc with
  | nil => simp [accumWhileLt]
  | cons w rest ih =>
    by_cases h : w + acc < threshold
    · simp only [accumWhileLt, if_pos h]
      intro j hj
      cases j with
      | zero =>
        simpa [List.take_succ_cons] using by omega
      | succ j' =>
        have hrec := ih (acc + w) j' (Nat.lt_of_succ_lt_succ hj)
        simp only [List.take_succ_cons, List.sum_cons]
        omega
    · simp [accumWhileLt, if_neg h]

theorem accumWhileLt_stop (threshold : Int) (cols : List Int) (acc : Int) :
    (accumWhileLt threshold cols acc).1 = cols.length ∨
      threshold ≤ acc + (cols.take ((accumWhileLt threshold cols acc).1 + 1)).sum := by
  induction cols generalizing acc with
  | nil => left; simp [accumWhileLt]
  | cons w rest ih =>
    by_cases h : w + acc < threshold
    · simp only [accumWhileLt, if_pos h, List.length_cons]
      rcases ih (acc + w) with h1 | h2
      · left; omega
      · right
        simp only [List.take_succ_cons, List.sum_cons]
        omega
    · right
      simp only [accumWhileLt, if_neg h, List.take_succ_cons, List.take_zero,
        List.sum_cons, List.sum_nil]
      omega

theorem ghrrv_leftIndex_eq (center : List Int) (x w ov : Int) :
    (getHorizontalRenderRangeVirtual center x w ov).leftIndex
      = (accumWhileLt (max 0 (x - ov)) center 0).1 := rfl

theorem ghrrv_leftBlank_eq (center : List Int) (x w ov : Int) :
    (getHorizontalRenderRangeVirtual center x w ov).leftBlank
      = (accumWhileLt (max 0 (x - ov)) center 0).2 := rfl

theorem ghrrv_rightIndex_eq (center : List Int) (x w ov : Int) :
    (getHorizontalRenderRangeVirtual center x w ov).rightIndex
      = (accumWhileLt (max 0 (x - ov)) center 0).1
        + (accumWhileLt
            (w + (max 0 (x - ov) - (accumWhileLt (max 0 (x - ov)) center 0).2) + 2 * ov)
            (center.drop (accumWhileLt (max 0 (x - ov)) center 0).1) 0).1 := rfl

theorem ghrrv_rightBlank_eq (center : List Int) (x w ov : Int) :
    (getHorizontalRenderRangeVirtual center x w ov).rightBlank
      = sum (center.drop (center.length
          - (center.length - (accumWhileLt (max 0 (x - ov)) center 0).1
              - (accumWhileLt
                  (w + (max 0 (x - ov) - (accumWhileLt (max 0 (x - ov)) center 0).2) + 2 * ov)
                  (center.drop (accumWhileLt (max 0 (x - ov)) center 0).1) 0).1))) := rfl

theorem ghrrv_leftIndex_le (center : List Int) (x w ov : Int) :
    (getHorizontalRenderRangeVirtual center x w ov).leftIndex ≤ center.length := by
  rw [ghrrv_leftIndex_eq]
  exact accumWhileLt_fst_le _ _ _

theorem ghrrv_leftBlank (center : List Int) (x w ov : Int) :
    (getHorizontalRenderRangeVirtual center x w ov).leftBlank
      = (center.take (getHorizontalRenderRangeVirtual center x w ov).leftIndex).sum := by
  rw [ghrrv_leftBlank_eq, ghrrv_leftIndex_eq, accumWhileLt_snd, zero_add]

theorem ghrrv_left_lt (center : List Int) (x w ov : Int) :
    ∀ j < (getHorizontalRenderRangeVirtual center x w ov).leftIndex,
      (center.take (j + 1)).sum < max 0 (x - ov) := by
  rw [ghrrv_leftIndex_eq]
  intro j hj
  have h := accumWhileLt_lt (max 0 (x - ov)) center 0 j hj
  omega

theorem ghrrv_left_stop (center : List Int) (x w ov : Int) :
    (getHorizontalRenderRangeVirtual center x w ov).leftIndex = center.length ∨
      max 0 (x - ov)
        ≤ (center.take ((getHorizontalRenderRangeVirtual center x w ov).leftIndex + 1)).sum := by
  rw [ghrrv_leftIndex_eq]
  have h := accumWhileLt_stop (max 0 (x - ov)) center 0
  rcases h with h | h
  · exact Or.inl h
  · exact Or.inr (by omega)

theorem ghrrv_left_le_right (center : List Int) (x w ov : Int) :
    (getHorizontalRenderRangeVirtual center x w ov).leftIndex
      ≤ (getHorizontalRenderRangeVirtual center x w ov).rightIndex := by
  rw [ghrrv_leftIndex_eq, ghrrv_rightIndex_eq]
  exact Nat.le_add_right _ _

theorem ghrrv_rightIndex_le (center : List Int) (x w ov : Int) :
    (getHorizontalRenderRangeVirtual center x w ov).rightIndex ≤ center.length := by
  rw [ghrrv_rightIndex_eq]
  have h1 := accumWhileLt_fst_le (max 0 (x - ov)) center 0
  have h2 := accumWhileLt_fst_le
    (w + (max 0 (x - ov) - (accumWhileLt (max 0 (x - ov)) center 0).2) + 2 * ov)
    (center.drop (accumWhileLt (max 0 (x - ov)) center 0).1) 0
  rw [List.length_drop] at h2
  omega

theorem ghrrv_center_lt (center : List Int) (x w ov : Int) :
    ∀ j < (getHorizontalRenderRangeVirtual center x w ov).rightIndex
            - (getHorizontalRenderRangeVirtual center x w ov).leftIndex,
      ((center.drop (getHorizontalRenderRangeVirtual center x w ov).leftIndex).take (j + 1)).sum
        < w + (max 0 (x - ov) - (getHorizontalRenderRangeVirtual center x w ov).leftBlank)
            + 2 * ov := by
  rw [ghrrv_leftIndex_eq, ghrrv_rightIndex_eq, ghrrv_leftBlank_eq, Nat.add_sub_cancel_left]
  intro j hj
  have h := accumWhileLt_lt
    (w + (max 0 (x - ov) - (accumWhileLt (max 0 (x - ov)) center 0).2) + 2 * ov)
    (center.drop (accumWhileLt (max 0 (x - ov)) center 0).1) 0 j hj
  omega

theorem ghrrv_center_stop (center : List Int) (x w ov : Int) :
    (getHorizontalRenderRangeVirtual center x w ov).rightIndex = center.length ∨
      w + (max 0 (x - ov) - (getHorizontalRenderRangeVirtual center x w ov).leftBlank) + 2 * ov
        ≤ ((center.drop (getHorizontalRenderRangeVirtual center x w ov).leftIndex).take
            ((getHorizontalRenderRangeVirtual center x w ov).rightIndex
              - (getHorizontalRenderRangeVirtual center x w ov).leftIndex + 1)).sum := by
  rw [ghrrv_leftIndex_eq, ghrrv_rightIndex_eq, ghrrv_leftBlank_eq, Nat.add_sub_cancel_left]
  have h := accumWhileLt_stop
    (w + (max 0 (x - ov) - (accumWhileLt (max 0 (x - ov)) center 0).2) + 2 * ov)
    (center.drop (accumWhileLt (max 0 (x - ov)) center 0).1) 0
  rcases h with h | h
  · left
    rw [h, List.length_drop]
    have h1 := accumWhileLt_fst_le (max 0 (x - ov)) center 0
    omega
  · right
    omega

theorem ghrrv_rightBlank (center : List Int) (x w ov : Int) :
    (getHorizontalRenderRangeVirtual center x w ov).rightBlank
      = sum (center.drop (getHorizontalRenderRangeVirtual center x w ov).rightIndex) := by
  rw [ghrrv_rightBlank_eq, ghrrv_rightIndex_eq]
  have h1 := accumWhileLt_fst_le (max 0 (x - ov)) center 0
  have h2 := accumWhileLt_fst_le
    (w + (max 0 (x - ov) - (accumWhileLt (max 0 (x - ov)) center 0).2) + 2 * ov)
    (center.drop (accumWhileLt (max 0 (x - ov)) center 0).1) 0
  rw [List.length_drop] at h2
  congr 2
  omega

theorem ghrrv_conservation (center : List Int) (x w ov : Int) :
    (getHorizontalRenderRangeVirtual center x w ov).leftBlank
      + ((center.drop (getHorizontalRenderRangeVirtual center x w ov).leftIndex).take
          ((getHorizontalRenderRangeVirtual center x w ov).rightIndex
            - (getHorizontalRenderRangeVirtual center x w ov).leftIndex)).sum
      + (getHorizontalRenderRangeVirtual center x w ov).rightBlank
      = center.sum := by
  rw [ghrrv_leftBlank, ghrrv_rightBlank]
  have hdrop : center.drop (getHorizontalRenderRangeVirtual center x w ov).rightIndex
      = (center.drop (getHorizontalRenderRangeVirtual center x w ov).leftIndex).drop
          ((getHorizontalRenderRangeVirtual center x w ov).rightIndex
            - (getHorizontalRenderRangeVirtual center x w ov).leftIndex) := by
    rw [List.drop_drop]
    congr 1
    have h := ghrrv_left_le_right center x w ov
    omega
  rw [hdrop, sum]
  conv_rhs => rw [← List.take_append_drop
    (getHorizontalRenderRangeVirtual center x w ov).leftIndex center]
  rw [List.sum_append]
  conv_rhs => rw [← List.take_append_drop
    ((getHorizontalRenderRangeVirtual center x w ov).rightIndex
      - (getHorizontalRenderRangeVirtual center x w ov).leftIndex)
    (center.drop (getHorizontalRenderRangeVirtual center x w ov).leftIndex)]
  rw [List.sum_append]
  ring

/-- Concrete state for the spec's horizontal-windowing example: center column
widths `[50,50,50,50,50]`, `viewportWidth = 100` (`maxRenderWidth`),
`scrollOffsetX = 120` (`offsetX`), horizontal virtualization enabled. -/
def specHozExampleState : BaseTableHozState :=
  { offsetX := 120
    maxRenderWidth := 100
    useVirtualHorizontal := true
    flat := { left := [], center := [50, 50, 50, 50, 50], right := [] } }

/-- The `HorizontalRenderRange` the code computes for `specHozExampleState`
with `overscan = 20`. -/
def specHozExampleRange : HorizontalRenderRange :=
  { leftIndex := 1, leftBlank := 50, rightIndex := 4, rightBlank := 50 }

/-- Concrete state with horizontal virtualization disabled and a non-empty
fixed-left column group. -/
def lockedNonVirtualState : BaseTableHozState :=
  { offsetX := 0
    maxRenderWidth := 800
    useVirtualHorizontal := false
    flat := { left := [100], center := [50], right := [] } }

/-- C1 (amended): the range returned by `getHorizontalRenderRange` always
satisfies `0 ≤ leftIndex ≤ rightIndex`; `rightIndex` is bounded by the center
column count in the virtualization-enabled branch, but in the disabled branch
it is bounded only by `flat.full.length` (the total flattened column count),
which exceeds the center count whenever fixed columns exist. -/
theorem c1_horizontal_range_invariant (s : BaseTableHozState) (overscan : Int)
    (r : HorizontalRenderRange) (hr : r = getHorizontalRenderRange s overscan) :
    0 ≤ r.leftIndex ∧ r.leftIndex ≤ r.rightIndex ∧
      r.rightIndex ≤ (if s.useVirtualHorizontal then s.flat.center.length
        else (FlatCols.full s.flat).length) := by
  subst hr
  by_cases h : s.useVirtualHorizontal = false
  · simp only [getHorizontalRenderRange, if_pos h, h, if_false]
    exact ⟨Nat.zero_le _, Nat.zero_le _, Nat.le_refl _⟩
  · have hv : s.useVirtualHorizontal = true := by
      revert h; cases s.useVirtualHorizontal <;> simp
    simp only [getHorizontalRenderRange, if_neg h, hv, if_true]
    exact ⟨Nat.zero_le _, ghrrv_left_le_right _ _ _ _, ghrrv_rightIndex_le _ _ _ _⟩

/-- C1 counterexample: in the virtualization-disabled branch with a fixed-left
column present, `rightIndex` exceeds the number of center-group columns, so the
claimed invariant `rightIndex ≤ centerColumnCount` fails. -/
theorem c1_counterexample :
    ¬ (getHorizontalRenderRange lockedNonVirtualState 20).rightIndex
        ≤ lockedNonVirtualState.flat.center.length := by decide

theorem c1_horizontal_range_invariant_witness :
    ({ leftIndex := 0, leftBlank := 0, rightIndex := 2, rightBlank := 0 } : HorizontalRenderRange)
        = getHorizontalRenderRange lockedNonVirtualState 20 ∧
      0 ≤ ({ leftIndex := 0, leftBlank := 0, rightIndex := 2, rightBlank := 0 } :
          HorizontalRenderRange).leftIndex ∧
      ({ leftIndex := 0, leftBlank := 0, rightIndex := 2, rightBlank := 0 } :
          HorizontalRenderRange).leftIndex
        ≤ ({ leftIndex := 0, leftBlank := 0, rightIndex := 2, rightBlank := 0 } :
          HorizontalRenderRange).rightIndex ∧
      ({ leftIndex := 0, leftBlank := 0, rightIndex := 2, rightBlank := 0 } :
          HorizontalRenderRange).rightIndex
        ≤ (if lockedNonVirtualState.useVirtualHorizontal
            then lockedNonVirtualState.flat.center.length
            else (FlatCols.full lockedNonVirtualState.flat).length) :=
  ⟨by decide, c1_horizontal_range_invariant lockedNonVirtualState 20 _ (by decide)⟩

/-- C4 (amended): when horizontal virtualization is disabled,
`getHorizontalRenderRange` returns exactly `{ leftIndex: 0, leftBlank: 0,
rightIndex: flat.full.length, rightBlank: 0 }`, where `flat.full.length` counts
all flattened columns (left, center and right groups together). -/
theorem c4_nonvirtual_range (s : BaseTableHozState) (overscan : Int)
    (h : s.useVirtualHorizontal = false) :
    getHorizontalRenderRange s overscan
      = { leftIndex := 0, leftBlank := 0, rightIndex := (FlatCols.full s.flat).length,
          rightBlank := 0 } := by
  simp [getHorizontalRenderRange, h]

/-- C4 counterexample: with a fixed-left column present and horizontal
virtualization disabled, the result differs from the claimed value
`{ 0, 0, centerColumns.length, 0 }`. -/
theorem c4_counterexample :
    getHorizontalRenderRange lockedNonVirtualState 20
      ≠ { leftIndex := 0, leftBlank := 0,
          rightIndex := lockedNonVirtualState.flat.center.length, rightBlank := 0 } := by
  decide

theorem c4_nonvirtual_range_witness :
    lockedNonVirtualState.useVirtualHorizontal = false ∧
      getHorizontalRenderRange lockedNonVirtualState 20
        = { leftIndex := 0, leftBlank := 0,
            rightIndex := (FlatCols.full lockedNonVirtualState.flat).length, rightBlank := 0 } :=
  ⟨by decide, c4_nonvirtual_range lockedNonVirtualState 20 (by decide)⟩

/-- C3 (amended): with horizontal virtualization enabled, `leftIndex` is the
first center column whose trailing edge (cumulative width including that
column) reaches `max(0, scrollOffsetX - overscan)`, and `leftBlank` is the
accumulated width of the columns before it.  In the spec's example
(`[50,50,50,50,50]`, `viewportWidth = 100`, `scrollOffsetX = 120`,
`overscan = 20`) the first column whose trailing edge reaches `100` is index 1
(not index 2); see the counterexample. -/
theorem c3_leftIndex_characterization (s : BaseTableHozState) (overscan : Int)
    (r : HorizontalRenderRange) (hr : r = getHorizontalRenderRange s overscan)
    (hv : s.useVirtualHorizontal = true) :
    r.leftIndex ≤ s.flat.center.length ∧
      (∀ j < r.leftIndex, (s.flat.center.take (j + 1)).sum < max 0 (s.offsetX - overscan)) ∧
      (r.leftIndex = s.flat.center.length ∨
        max 0 (s.offsetX - overscan) ≤ (s.flat.center.take (r.leftIndex + 1)).sum) ∧
      r.leftBlank = (s.flat.center.take r.leftIndex).sum := by
  subst hr
  have hne : ¬ s.useVirtualHorizontal = false := by simp [hv]
  simp only [getHorizontalRenderRange, if_neg hne]
  exact ⟨ghrrv_leftIndex_le _ _ _ _, ghrrv_left_lt _ _ _ _, ghrrv_left_stop _ _ _ _,
    ghrrv_leftBlank _ _ _ _⟩

/-- C3 counterexample: on the spec's example input the computed `leftIndex` is
1 — the first column whose trailing edge (50·(i+1)) reaches
`max(0, 120 - 20) = 100` — not 2 as the claim states. -/
theorem c3_counterexample :
    (getHorizontalRenderRange specHozExampleState 20).leftIndex = 1 ∧
      (getHorizontalRenderRange specHozExampleState 20).leftIndex ≠ 2 := by decide

theorem c3_leftIndex_characterization_witness :
    specHozExampleRange = getHorizontalRenderRange specHozExampleState 20 ∧
      specHozExampleState.useVirtualHorizontal = true ∧
      (specHozExampleRange.leftIndex ≤ specHozExampleState.flat.center.length ∧
        (∀ j < specHozExampleRange.leftIndex,
          (specHozExampleState.flat.center.take (j + 1)).sum
            < max 0 (specHozExampleState.offsetX - 20)) ∧
        (specHozExampleRange.leftIndex = specHozExampleState.flat.center.length ∨
          max 0 (specHozExampleState.offsetX - 20)
            ≤ (specHozExampleState.flat.center.take (specHozExampleRange.leftIndex + 1)).sum) ∧
        specHozExampleRange.leftBlank
          = (specHozExampleState.flat.center.take specHozExampleRange.leftIndex).sum) :=
  ⟨by decide, by decide,
    c3_leftIndex_characterization specHozExampleState 20 specHozExampleRange (by decide) (by decide)⟩

/-- C2 (amended): with horizontal virtualization enabled, columns are
accumulated from `leftIndex` while the running width (including the next
column) stays strictly below `maxRenderWidth + (max(0, scrollOffsetX -
overscan) - leftBlank) + 2·overscan` — the code uses the overscanned offset
`max(0, scrollOffsetX - overscan)`, not the raw `scrollOffsetX` of the claim —
and the stopping point is `rightIndex`; `rightBlank` equals the sum of the
remaining center column widths. -/
theorem c2_rightIndex_characterization (s : BaseTableHozState) (overscan : Int)
    (r : HorizontalRenderRange) (hr : r = getHorizontalRenderRange s overscan)
    (hv : s.useVirtualHorizontal = true) :
    r.leftIndex ≤ r.rightIndex ∧ r.rightIndex ≤ s.flat.center.length ∧
      (∀ j < r.rightIndex - r.leftIndex,
        ((s.flat.center.drop r.leftIndex).take (j + 1)).sum
          < s.maxRenderWidth + (max 0 (s.offsetX - overscan) - r.leftBlank) + 2 * overscan) ∧
      (r.rightIndex = s.flat.center.length ∨
        s.maxRenderWidth + (max 0 (s.offsetX - overscan) - r.leftBlank) + 2 * overscan
          ≤ ((s.flat.center.drop r.leftIndex).take (r.rightIndex - r.leftIndex + 1)).sum) ∧
      r.rightBlank = sum (s.flat.center.drop r.rightIndex) := by
  subst hr
  have hne : ¬ s.useVirtualHorizontal = false := by simp [hv]
  simp only [getHorizontalRenderRange, if_neg hne]
  exact ⟨ghrrv_left_le_right _ _ _ _, ghrrv_rightIndex_le _ _ _ _, ghrrv_center_lt _ _ _ _,
    ghrrv_center_stop _ _ _ _, ghrrv_rightBlank _ _ _ _⟩

/-- C2 counterexample: on the spec's example input the code stops at
`rightIndex = 4` even though the running width through one more column (200)
is still strictly below the claim's threshold `maxRenderWidth + (scrollOffsetX
- leftBlank) + 2·overscan = 100 + (120 - 50) + 40 = 210`; under the claimed
rule accumulation would have continued, so the claimed stopping point (5) is
not the code's. -/
theorem c2_counterexample :
    (getHorizontalRenderRange specHozExampleState 20).rightIndex = 4 ∧
      (getHorizontalRenderRange specHozExampleState 20).rightIndex
        < specHozExampleState.flat.center.length ∧
      ((specHozExampleState.flat.center.drop
            (getHorizontalRenderRange specHozExampleState 20).leftIndex).take
          ((getHorizontalRenderRange specHozExampleState 20).rightIndex
            - (getHorizontalRenderRange specHozExampleState 20).leftIndex + 1)).sum
        < specHozExampleState.maxRenderWidth
            + (specHozExampleState.offsetX
                - (getHorizontalRenderRange specHozExampleState 20).leftBlank)
            + 2 * 20 := by decide

theorem c2_rightIndex_characterization_witness :
    specHozExampleRange = getHorizontalRenderRange specHozExampleState 20 ∧
      specHozExampleState.useVirtualHorizontal = true ∧
      (specHozExampleRange.leftIndex ≤ specHozExampleRange.rightIndex ∧
        specHozExampleRange.rightIndex ≤ specHozExampleState.flat.center.length ∧
        (∀ j < specHozExampleRange.rightIndex - specHozExampleRange.leftIndex,
          ((specHozExampleState.flat.center.drop specHozExampleRange.leftIndex).take
              (j + 1)).sum
            < specHozExampleState.maxRenderWidth
                + (max 0 (specHozExampleState.offsetX - 20) - specHozExampleRange.leftBlank)
                + 2 * 20) ∧
        (specHozExampleRange.rightIndex = specHozExampleState.flat.center.length ∨
          specHozExampleState.maxRenderWidth
              + (max 0 (specHozExampleState.offsetX - 20) - specHozExampleRange.leftBlank)
              + 2 * 20
            ≤ ((specHozExampleState.flat.center.drop specHozExampleRange.leftIndex).take
                (specHozExampleRange.rightIndex - specHozExampleRange.leftIndex + 1)).sum) ∧
        specHozExampleRange.rightBlank
          = sum (specHozExampleState.flat.center.drop specHozExampleRange.rightIndex)) :=
  ⟨by decide, by decide,
    c2_rightIndex_characterization specHozExampleState 20 specHozExampleRange
      (by decide) (by decide)⟩

/-- C9: conservation of total width — with horizontal virtualization enabled,
`leftBlank` plus the widths of the rendered center columns
`[leftIndex, rightIndex)` plus `rightBlank` always equals the total width of
all center columns. -/
theorem c9_width_conservation (s : BaseTableHozState) (overscan : Int)
    (r : HorizontalRenderRange) (hr : r = getHorizontalRenderRange s overscan)
    (hv : s.useVirtualHorizontal = true) :
    r.leftBlank
        + ((s.flat.center.drop r.leftIndex).take (r.rightIndex - r.leftIndex)).sum
        + r.rightBlank
      = s.flat.center.sum := by
  subst hr
  have hne : ¬ s.useVirtualHorizontal = false := by simp [hv]
  simp only [getHorizontalRenderRange, if_neg hne]
  exact ghrrv_conservation _ _ _ _

theorem c9_width_conservation_witness :
    specHozExampleRange = getHorizontalRenderRange specHozExampleState 20 ∧
      specHozExampleState.useVirtualHorizontal = true ∧
      specHozExampleRange.leftBlank
          + ((specHozExampleState.flat.center.drop specHozExampleRange.leftIndex).take
              (specHozExampleRange.rightIndex - specHozExampleRange.leftIndex)).sum
          + specHozExampleRange.rightBlank
        = specHozExampleState.flat.center.sum :=
  ⟨by decide, by decide,
    c9_width_conservation specHozExampleState 20 specHozExampleRange (by decide) (by decide)⟩

/-- `SpanRect` (spec §3): the half-open rectangle
`[top, bottom) × [left, right)` of a merged cell. -/
structure SpanRect where
  top : Int
  bottom : Int
  left : Int
  right : Int
deriving DecidableEq, Repr

/-- Modelled from the spec: the `SpanManager` state (`helpers/SpanManager`,
not under `src/`) — the spanning-cell rectangles registered so far in the
current render pass (spec §4.3). -/
structure SpanManager where
  rects : List SpanRect
deriving DecidableEq, Repr

/-- Modelled from the spec: `SpanManager.testSkip` / `isCovered` (spec §4.3) —
true iff some previously registered span's rectangle contains
`(rowIndex, colIndex)` but is not its own origin (top-left) cell. -/
def SpanManager.testSkip (m : SpanManager) (rowIndex colIndex : Int) : Bool :=
  m.rects.any fun rect =>
    decide (rect.left ≤ colIndex) && decide (colIndex < rect.right) &&
    decide (rect.top ≤ rowIndex) && decide (rowIndex < rect.bottom) &&
    !(decide (rowIndex = rect.top) && decide (colIndex = rect.left))

/-- Modelled from the spec: `SpanManager.add` / `registerSpan` (spec §4.3) —
record the rectangle originating at `(rowIndex, colIndex)` with the given
(already clipped) spans. -/
def SpanManager.add (m : SpanManager) (rowIndex colIndex colSpan rowSpan : Int) : SpanManager :=
  { rects := m.rects
      ++ [({ top := rowIndex, bottom := rowIndex + rowSpan, left := colIndex,
             right := colIndex + colSpan } : SpanRect)] }

/-- Modelled from the spec: `SpanManager.stripUpwards` (spec §4.3) — drop the
spans whose bottom boundary is at or above the given row, keeping only spans
that can still cover the current or later rows. -/
def SpanManager.stripUpwards (m : SpanManager) (rowIndex : Int) : SpanManager :=
  { rects := m.rects.filter fun rect => decide (rowIndex < rect.bottom) }

/-- The two sources of a cell's declared spans in `renderCell`
(src lines 509-522): either `column.getSpanRect` is present and returns a
rectangle or `null`, or the spans come from `cellProps.colSpan` /
`cellProps.rowSpan` (defaulting to 1). -/
inductive SpanSource where
  | spanRect (rect : Option SpanRect)
  | cellProps (colSpan rowSpan : Option Int)
deriving Repr

/-- The declared `(colSpan, rowSpan)` of a cell before clipping
(src lines 509-522): with `getSpanRect`, `colSpan = spanRect.right - colIndex`
and `rowSpan = spanRect.bottom - rowIndex` (1 when the rect is `null`);
otherwise the `cellProps` values with default 1. -/
def rawSpans (spanSrc : SpanSource) (rowIndex colIndex : Int) : Int × Int :=
  match spanSrc with
  | .spanRect none => (1, 1)
  | .spanRect (some sr) => (sr.right - colIndex, sr.bottom - rowIndex)
  | .cellProps c r => (c.getD 1, r.getD 1)

/-- The render-range context read by `renderCell`: the vertical range
`[topIndex, bottomIndex)`, the horizontal range's `rightIndex` and the number
of fixed-left columns (src `renderTableBody`, lines 445-448). -/
structure RenderContext where
  topIndex : Int
  bottomIndex : Int
  hozRightIndex : Int
  leftFlatCount : Int
deriving Repr

/-- The outcome of `renderCell` for one cell: whether the cell was skipped as
covered, its effective (clipped) spans, and whether it was registered with the
span manager. -/
structure CellResult where
  skipped : Bool
  colSpan : Int
  rowSpan : Int
  registered : Bool
deriving Repr

/-- `renderCell` (src lines 496-563), restricted to its span logic: a covered
cell is skipped (line 497); otherwise the declared spans are clipped as
`rowSpan = min(rowSpan, bottomIndex - rowIndex)` and `colSpan = min(colSpan,
leftFlatCount + hoz.rightIndex - colIndex)` (lines 525-526), and the cell is
registered with the span manager exactly when `colSpan > 1 || rowSpan > 1`
(lines 528-531). -/
def renderCell (ctx : RenderContext) (m : SpanManager) (spanSrc : SpanSource)
    (rowIndex colIndex : Int) : CellResult × SpanManager :=
  if m.testSkip rowIndex colIndex then
    ({ skipped := true, colSpan := 1, rowSpan := 1, registered := false }, m)
  else
    let raw := rawSpans spanSrc rowIndex colIndex
    let rowSpan := min raw.2 (ctx.bottomIndex - rowIndex)
    let colSpan := min raw.1 (ctx.leftFlatCount + ctx.hozRightIndex - colIndex)
    let hasSpan := decide (1 < colSpan) || decide (1 < rowSpan)
    ({ skipped := false, colSpan := colSpan, rowSpan := rowSpan, registered := hasSpan },
      if hasSpan then m.add rowIndex colIndex colSpan rowSpan else m)

/-- The per-row fold of `renderCell` over the row's normal (non-blank) column
descriptors (src lines 486-491), threading the span manager and collecting the
`(rowIndex, colIndex)` pairs registered in this row.  `spanOf` gives each
cell's declared span source. -/
def renderRowCells (ctx : RenderContext) (spanOf : Int → Int → SpanSource) :
    SpanManager → Int → List Int → SpanManager × List (Int × Int)
  | m, _, [] => (m, [])
  | m, rowIndex, c :: rest =>
    ((renderRowCells ctx spanOf (renderCell ctx m (spanOf rowIndex c) rowIndex c).2
        rowIndex rest).1,
      (if (renderCell ctx m (spanOf rowIndex c) rowIndex c).1.registered
        then [(rowIndex, c)] else [])
        ++ (renderRowCells ctx spanOf (renderCell ctx m (spanOf rowIndex c) rowIndex c).2
            rowIndex rest).2)

/-- `renderRow` (src lines 464-494): strip spans no longer reachable from this
row, then render the row's cells in order. -/
def renderRow (ctx : RenderContext) (spanOf : Int → Int → SpanSource) (cols : List Int)
    (rowIndex : Int) (m : SpanManager) : SpanManager × List (Int × Int) :=
  renderRowCells ctx spanOf (m.stripUpwards rowIndex) rowIndex cols

/-- The fold of `renderRow` over consecutive row indices starting at
`rowIndex`, for `n` rows. -/
def renderPassAux (ctx : RenderContext) (spanOf : Int → Int → SpanSource) (cols : List Int) :
    Int → Nat → SpanManager → SpanManager × List (Int × Int)
  | _, 0, m => (m, [])
  | rowIndex, n + 1, m =>
    ((renderPassAux ctx spanOf cols (rowIndex + 1) n
        (renderRow ctx spanOf cols rowIndex m).1).1,
      (renderRow ctx spanOf cols rowIndex m).2
        ++ (renderPassAux ctx spanOf cols (rowIndex + 1) n
            (renderRow ctx spanOf cols rowIndex m).1).2)

/-- One render pass of `renderTableBody` (src lines 450-451): a fresh
`SpanManager` and one `renderRow` per row of `[topIndex, bottomIndex)`, row
indices ascending. -/
def renderPass (ctx : RenderContext) (spanOf : Int → Int → SpanSource) (cols : List Int) :
    SpanManager × List (Int × Int) :=
  renderPassAux ctx spanOf cols ctx.topIndex (ctx.bottomIndex - ctx.topIndex).toNat { rects := [] }

theorem renderRowCells_snd_map_sublist (ctx : RenderContext)
    (spanOf : Int → Int → SpanSource) (cols : List Int) (rowIndex : Int) (m : SpanManager) :
    ((renderRowCells ctx spanOf m rowIndex cols).2.map Prod.snd).Sublist cols := by
  induction cols generalizing m with
  | nil => simp [renderRowCells]
  | cons c rest ih =>
    by_cases h : (renderCell ctx m (spanOf rowIndex c) rowIndex c).1.registered
    · simp only [renderRowCells, if_pos h, List.singleton_append, List.map_cons]
      exact List.Sublist.cons₂ c (ih _)
    · simp only [renderRowCells, if_neg h, List.nil_append]
      exact List.Sublist.cons c (ih _)

theorem renderRowCells_fst_eq (ctx : RenderContext)
    (spanOf : Int → Int → SpanSource) (cols : List Int) (rowIndex : Int) (m : SpanManager) :
    ∀ p ∈ (renderRowCells ctx spanOf m rowIndex cols).2, p.1 = rowIndex := by
  induction cols generalizing m with
  | nil => simp [renderRowCells]
  | cons c rest ih =>
    intro p hp
    by_cases h : (renderCell ctx m (spanOf rowIndex c) rowIndex c).1.registered
    · simp only [renderRowCells, if_pos h, List.singleton_append, List.mem_cons] at hp
      rcases hp with rfl | hp
      · rfl
      · exact ih _ p hp
    · simp only [renderRowCells, if_neg h, List.nil_append] at hp
      exact ih _ p hp

theorem renderRow_nodup (ctx : RenderContext) (spanOf : Int → Int → SpanSource)
    (cols : List Int) (rowIndex : Int) (m : SpanManager) (hcols : cols.Nodup) :
    (renderRow ctx spanOf cols rowIndex m).2.Nodup := by
  have hsub := renderRowCells_snd_map_sublist ctx spanOf cols rowIndex (m.stripUpwards rowIndex)
  have hmap : ((renderRow ctx spanOf cols rowIndex m).2.map Prod.snd).Nodup :=
    hsub.nodup hcols
  exact hmap.of_map _

theorem renderPassAux_fst_ge (ctx : RenderContext) (spanOf : Int → Int → SpanSource)
    (cols : List Int) (n : Nat) :
    ∀ (rowIndex : Int) (m : SpanManager),
      ∀ p ∈ (renderPassAux ctx spanOf cols rowIndex n m).2, rowIndex ≤ p.1 := by
  induction n with
  | zero => intro rowIndex m p hp; simp [renderPassAux] at hp
  | succ n ih =>
    intro rowIndex m p hp
    simp only [renderPassAux, List.mem_append] at hp
    rcases hp with hp | hp
    · exact le_of_eq (renderRowCells_fst_eq ctx spanOf cols rowIndex _ p hp).symm
    · have := ih (rowIndex + 1) _ p hp
      omega

theorem renderPassAux_nodup (ctx : RenderContext) (spanOf : Int → Int → SpanSource)
    (cols : List Int) (hcols : cols.Nodup) (n : Nat) :
    ∀ (rowIndex : Int) (m : SpanManager), (renderPassAux ctx spanOf cols rowIndex n m).2.Nodup := by
  induction n with
  | zero => intro rowIndex m; simp [renderPassAux]
  | succ n ih =>
    intro rowIndex m
    simp only [renderPassAux]
    refine List.Nodup.append (renderRow_nodup ctx spanOf cols rowIndex m hcols)
      (ih (rowIndex + 1) _) ?_
    intro p hp1 hp2
    have h1 := renderRowCells_fst_eq ctx spanOf cols rowIndex _ p hp1
    have h2 := renderPassAux_fst_ge ctx spanOf cols n (rowIndex + 1) _ p hp2
    omega

/-- C5: for every cell rendered (not skipped) in a render pass, the effective
spans are clamped as `rowSpan = min(rowSpan, bottomIndex - rowIndex)` and
`colSpan = min(colSpan, leftFlatCount + hoz.rightIndex - colIndex)` (the
rendered-column bound from `colIndex`), so the rendered extent never exceeds
the current render range: `rowIndex + rowSpan ≤ bottomIndex` and `colIndex +
colSpan ≤ leftFlatCount + hoz.rightIndex`. -/
theorem c5_span_clipping (ctx : RenderContext) (m : SpanManager) (spanSrc : SpanSource)
    (rowIndex colIndex : Int)
    (h : (renderCell ctx m spanSrc rowIndex colIndex).1.skipped = false) :
    (renderCell ctx m spanSrc rowIndex colIndex).1.rowSpan
        = min (rawSpans spanSrc rowIndex colIndex).2 (ctx.bottomIndex - rowIndex) ∧
      (renderCell ctx m spanSrc rowIndex colIndex).1.colSpan
        = min (rawSpans spanSrc rowIndex colIndex).1
            (ctx.leftFlatCount + ctx.hozRightIndex - colIndex) ∧
      rowIndex + (renderCell ctx m spanSrc rowIndex colIndex).1.rowSpan ≤ ctx.bottomIndex ∧
      colIndex + (renderCell ctx m spanSrc rowIndex colIndex).1.colSpan
        ≤ ctx.leftFlatCount + ctx.hozRightIndex := by
  by_cases hs : m.testSkip rowIndex colIndex
  · exfalso
    simp [renderCell, hs] at h
  · simp only [renderCell, if_neg hs]
    refine ⟨trivial, trivial, ?_, ?_⟩
    · have h1 := min_le_right (rawSpans spanSrc rowIndex colIndex).2 (ctx.bottomIndex - rowIndex)
      omega
    · have h2 := min_le_right (rawSpans spanSrc rowIndex colIndex).1
        (ctx.leftFlatCount + ctx.hozRightIndex - colIndex)
      omega

/-- The render context of the spec's clipping example: vertical render range
`[0, 10)`, horizontal `rightIndex = 5`, no fixed-left columns. -/
def clipExampleCtx : RenderContext :=
  { topIndex := 0, bottomIndex := 10, hozRightIndex := 5, leftFlatCount := 0 }

/-- The declared spans of the spec's clipping example: `rowSpan = 5` from
`cellProps`, no `colSpan`. -/
def clipExampleSrc : SpanSource := SpanSource.cellProps none (some 5)

theorem c5_span_clipping_witness :
    (renderCell clipExampleCtx { rects := [] } clipExampleSrc 8 0).1.skipped = false ∧
      ((renderCell clipExampleCtx { rects := [] } clipExampleSrc 8 0).1.rowSpan
          = min (rawSpans clipExampleSrc 8 0).2 (clipExampleCtx.bottomIndex - 8) ∧
        (renderCell clipExampleCtx { rects := [] } clipExampleSrc 8 0).1.colSpan
          = min (rawSpans clipExampleSrc 8 0).1
              (clipExampleCtx.leftFlatCount + clipExampleCtx.hozRightIndex - 0) ∧
        8 + (renderCell clipExampleCtx { rects := [] } clipExampleSrc 8 0).1.rowSpan
          ≤ clipExampleCtx.bottomIndex ∧
        0 + (renderCell clipExampleCtx { rects := [] } clipExampleSrc 8 0).1.colSpan
          ≤ clipExampleCtx.leftFlatCount + clipExampleCtx.hozRightIndex) ∧
      (renderCell clipExampleCtx { rects := [] } clipExampleSrc 8 0).1.rowSpan = 2 :=
  ⟨by decide, c5_span_clipping clipExampleCtx { rects := [] } clipExampleSrc 8 0 (by decide),
    by decide⟩

/-- C7: during a render pass a cell is registered with the span manager exactly
when it is not covered by an earlier span and its clipped `colSpan > 1` or
clipped `rowSpan > 1`; a cell whose effective spans are both 1 is never
registered; and the registered `(rowIndex, colIndex)` pairs of one pass are
pairwise distinct (each originating cell registers at most once). -/
theorem c7_span_registration :
    (∀ (ctx : RenderContext) (m : SpanManager) (spanSrc : SpanSource) (rowIndex colIndex : Int),
        (renderCell ctx m spanSrc rowIndex colIndex).1.registered = true
          ↔ m.testSkip rowIndex colIndex = false ∧
              (1 < (renderCell ctx m spanSrc rowIndex colIndex).1.colSpan ∨
                1 < (renderCell ctx m spanSrc rowIndex colIndex).1.rowSpan)) ∧
    (∀ (ctx : RenderContext) (m : SpanManager) (spanSrc : SpanSource) (rowIndex colIndex : Int),
        (renderCell ctx m spanSrc rowIndex colIndex).1.colSpan = 1 →
          (renderCell ctx m spanSrc rowIndex colIndex).1.rowSpan = 1 →
          (renderCell ctx m spanSrc rowIndex colIndex).1.registered = false) ∧
    (∀ (ctx : RenderContext) (spanOf : Int → Int → SpanSource) (cols : List Int),
        cols.Nodup → (renderPass ctx spanOf cols).2.Nodup) := by
  refine ⟨?_, ?_, ?_⟩
  · intro ctx m spanSrc rowIndex colIndex
    by_cases hs : m.testSkip rowIndex colIndex
    · simp [renderCell, hs]
    · simp only [renderCell, if_neg hs, Bool.or_eq_true, decide_eq_true_eq]
      simp [eq_false_of_ne_true hs]
  · intro ctx m spanSrc rowIndex colIndex h1 h2
    by_cases hs : m.testSkip rowIndex colIndex
    · simp [renderCell, hs]
    · simp only [renderCell, if_neg hs] at h1 h2 ⊢
      simp [h1, h2]
  · intro ctx spanOf cols hcols
    exact renderPassAux_nodup ctx spanOf cols hcols _ _ _

/-- A 2×3 pass used to witness C7: rows `[0, 2)`, three columns, every cell
declaring `colSpan = 2, rowSpan = 2`. -/
def passExampleCtx : RenderContext :=
  { topIndex := 0, bottomIndex := 2, hozRightIndex := 3, leftFlatCount := 0 }

/-- Span source for the C7 witness pass: every cell declares spans (2, 2)
through `cellProps`. -/
def passExampleSpanOf : Int → Int → SpanSource :=
  fun _ _ => SpanSource.cellProps (some 2) (some 2)

theorem c7_span_registration_witness :
    ([0, 1, 2] : List Int).Nodup ∧
      (renderPass passExampleCtx passExampleSpanOf [0, 1, 2]).2.Nodup :=
  ⟨by decide, c7_span_registration.2.2 passExampleCtx passExampleSpanOf [0, 1, 2] (by decide)⟩

/-- The clip rectangle of a visible-part event (`clipRect` of
`getVisiblePartObservable`). -/
structure ClipRect where
  left : Int
  right : Int
  top : Int
  bottom : Int
deriving DecidableEq, Repr

/-- A raw viewport geometry event: the table's visible clip rectangle in its
flow root and the vertical scroll offset. -/
structure VisiblePart where
  clipRect : ClipRect
  offsetY : Int
deriving DecidableEq, Repr

/-- The mapped geometry record of the render-range pipeline
(src lines 747-751): `maxRenderHeight = clipRect.bottom - clipRect.top`,
`maxRenderWidth = clipRect.right - clipRect.left`, `offsetY`. -/
structure SizeAndOffset where
  maxRenderHeight : Int
  maxRenderWidth : Int
  offsetY : Int
deriving DecidableEq, Repr

/-- The `op.map` stage of the render-range pipeline (src lines 747-751). -/
def toSizeAndOffset (e : VisiblePart) : SizeAndOffset :=
  { maxRenderHeight := e.clipRect.bottom - e.clipRect.top
    maxRenderWidth := e.clipRect.right - e.clipRect.left
    offsetY := e.offsetY }

/-- The comparator of the `op.distinctUntilChanged` stage (src lines 752-759):
two geometry records are considered equal — and the later one dropped — when
`maxRenderWidth`, `maxRenderHeight` and `offsetY` all differ by less than
`OVERSCAN_SIZE / 2` (the function is parameterized by the `OVERSCAN_SIZE`
constant, which lives in `base-table/utils`, not under `src/`). -/
def sizeAndOffsetClose (overscan : Int) (x y : SizeAndOffset) : Bool :=
  decide (|x.maxRenderWidth - y.maxRenderWidth| < overscan / 2) &&
  decide (|x.maxRenderHeight - y.maxRenderHeight| < overscan / 2) &&
  decide (|x.offsetY - y.offsetY| < overscan / 2)

/-- Modelled from the spec: the semantics of the rxjs `distinctUntilChanged`
operator (external library) — the first event is emitted; a later event is
compared with the most recently emitted one and dropped when the comparator
holds, otherwise emitted and made the new comparison baseline. -/
def distinctUntilChanged (comp : SizeAndOffset → SizeAndOffset → Bool) :
    Option SizeAndOffset → List SizeAndOffset → List SizeAndOffset
  | _, [] => []
  | none, e :: rest => e :: distinctUntilChanged comp (some e) rest
  | some last, e :: rest =>
    if comp last e then distinctUntilChanged comp (some last) rest
    else e :: distinctUntilChanged comp (some e) rest

/-- The render-range subscription of `initSubscriptions` (src lines 740-764):
visible-part events pass an `op.filter` (virtualization enabled), are mapped
to `SizeAndOffset` and deduplicated by `distinctUntilChanged`; each emitted
record triggers a `setState` (render-range recomputation). -/
def renderRangeUpdates (overscan : Int) (virtualOn : Bool) (events : List VisiblePart) :
    List SizeAndOffset :=
  distinctUntilChanged (sizeAndOffsetClose overscan) none
    ((events.filter fun _ => virtualOn).map toSizeAndOffset)

/-- `updateOffsetX` (src lines 289-295): when horizontal virtualization is on
and `|nextOffsetX - offsetX| ≥ OVERSCAN_SIZE / 2`, the state update
`offsetX := nextOffsetX` fires; otherwise no state update happens. -/
def updateOffsetX (useVirtualHorizontal : Bool) (offsetX nextOffsetX overscan : Int) :
    Option Int :=
  if useVirtualHorizontal then
    if overscan / 2 ≤ |nextOffsetX - offsetX| then some nextOffsetX else none
  else none

theorem distinctUntilChanged_chain (comp : SizeAndOffset → SizeAndOffset → Bool)
    (events : List SizeAndOffset) :
    ∀ lastOpt : Option SizeAndOffset,
      List.Chain' (fun a b => comp a b = false)
        (match lastOpt with
          | none => distinctUntilChanged comp none events
          | some l => l :: distinctUntilChanged comp (some l) events) := by
  induction events with
  | nil => intro lastOpt; cases lastOpt <;> simp [distinctUntilChanged]
  | cons e rest ih =>
    intro lastOpt
    cases lastOpt with
    | none =>
      simpa [distinctUntilChanged] using ih (some e)
    | some l =>
      by_cases h : comp l e
      · simpa [distinctUntilChanged, h] using ih (some l)
      · simp only [distinctUntilChanged, if_neg h]
        have hrest := ih (some e)
        exact List.Chain'.cons (by simpa using h) hrest

/-- C6 (amended): the hysteresis comparison is made against the most recently
*emitted* geometry record (the `distinctUntilChanged` baseline), not merely
the immediately preceding raw event: an event is suppressed iff it differs
from the last emitted one by less than `overscan/2` in all of
`maxRenderWidth`, `maxRenderHeight` and `offsetY`, and emitted (triggering the
`setState`) iff some component differs by at least `overscan/2`; consequently
any two consecutive *emitted* records differ by at least `overscan/2` in some
component.  The same `overscan/2` threshold gates `offsetX` updates in
`updateOffsetX` (when horizontal virtualization is on). -/
theorem c6_hysteresis_threshold :
    (∀ (overscan : Int) (last e : SizeAndOffset),
        distinctUntilChanged (sizeAndOffsetClose overscan) (some last) [e] = []
          ↔ (|last.maxRenderWidth - e.maxRenderWidth| < overscan / 2 ∧
              |last.maxRenderHeight - e.maxRenderHeight| < overscan / 2 ∧
              |last.offsetY - e.offsetY| < overscan / 2)) ∧
    (∀ (overscan : Int) (last e : SizeAndOffset),
        distinctUntilChanged (sizeAndOffsetClose overscan) (some last) [e] = [e]
          ↔ (overscan / 2 ≤ |last.maxRenderWidth - e.maxRenderWidth| ∨
              overscan / 2 ≤ |last.maxRenderHeight - e.maxRenderHeight| ∨
              overscan / 2 ≤ |last.offsetY - e.offsetY|)) ∧
    (∀ (overscan : Int) (virtualOn : Bool) (events : List VisiblePart),
        List.Chain' (fun a b => sizeAndOffsetClose overscan a b = false)
          (renderRangeUpdates overscan virtualOn events)) ∧
    (∀ (useVirtualHorizontal : Bool) (offsetX nextOffsetX overscan : Int),
        (updateOffsetX useVirtualHorizontal offsetX nextOffsetX overscan).isSome = true
          ↔ (useVirtualHorizontal = true ∧ overscan / 2 ≤ |nextOffsetX - offsetX|)) := by
  refine ⟨?_, ?_, ?_, ?_⟩
  · intro overscan last e
    by_cases h : sizeAndOffsetClose overscan last e
    · simp only [distinctUntilChanged, if_pos h]
      simp only [sizeAndOffsetClose, Bool.and_eq_true, decide_eq_true_eq] at h
      simp [h]
    · simp only [distinctUntilChanged, if_neg h]
      simp only [sizeAndOffsetClose, Bool.and_eq_true, decide_eq_true_eq] at h
      simpa using h
  · intro overscan last e
    by_cases h : sizeAndOffsetClose overscan last e
    · simp only [distinctUntilChanged, if_pos h]
      simp only [sizeAndOffsetClose, Bool.and_eq_true, decide_eq_true_eq] at h
      constructor
      · intro habs; exact absurd habs (by simp)
      · intro habs; omega
    · simp only [distinctUntilChanged, if_neg h]
      simp only [sizeAndOffsetClose, Bool.and_eq_true, decide_eq_true_eq] at h
      constructor
      · intro _; omega
      · intro _; trivial
  · intro overscan virtualOn events
    have h := distinctUntilChanged_chain (sizeAndOffsetClose overscan)
      ((events.filter fun _ => virtualOn).map toSizeAndOffset) none
    simpa [renderRangeUpdates] using h
  · intro useVirtualHorizontal offsetX nextOffsetX overscan
    cases useVirtualHorizontal with
    | false => simp [updateOffsetX]
    | true =>
      by_cases h : overscan / 2 ≤ |nextOffsetX - offsetX|
      · simp [updateOffsetX, h]
      · simp [updateOffsetX, h]

/-- A visible-part event whose clip rectangle is the fixed `800 × 600`
viewport and whose vertical offset is `y`. -/
def visibleEvt (y : Int) : VisiblePart :=
  { clipRect := { left := 0, right := 800, top := 0, bottom := 600 }, offsetY := y }

/-- C6 counterexample (with `OVERSCAN_SIZE = 100`, threshold 50): the events
at `offsetY = 0, 40, 75` are filtered so that the second (40) is suppressed;
the consecutive pair (40, 75) differs by less than 50 in every component, yet
the third event (75) IS emitted — it is compared with the last *emitted*
event (0), from which it differs by 75 — so the claim's "no state update for
consecutive events differing by less than overscan/2" is false. -/
theorem c6_counterexample :
    sizeAndOffsetClose 100 (toSizeAndOffset (visibleEvt 40)) (toSizeAndOffset (visibleEvt 75))
        = true ∧
      renderRangeUpdates 100 true [visibleEvt 0, visibleEvt 40, visibleEvt 75]
        = [toSizeAndOffset (visibleEvt 0), toSizeAndOffset (visibleEvt 75)] := by decide

/-- The signal sources `initSubscriptions` subscribes to (src lines 672-765):
the throttled window resize stream, the scroll synchronization of
body/header/sticky scrollbar, the loading-indicator position update, and the
visible-part render-range update. -/
inductive SignalSource where
  | windowResize
  | scrollSync
  | loadingIndicatorPosition
  | visiblePartRenderRange
deriving DecidableEq, Repr

/-- The aggregate `rootSubscription` (src line 207): whether it has been
unsubscribed, and the child subscriptions added to it. -/
structure RootSubscription where
  closed : Bool
  children : List SignalSource
deriving DecidableEq, Repr

/-- `rootSubscription.add(...)` — a child subscription is attached to the
aggregate. -/
def RootSubscription.add (root : RootSubscription) (s : SignalSource) : RootSubscription :=
  { root with children := root.children ++ [s] }

/-- `initSubscriptions` (src lines 672-765): every subscription the table
creates — window resize (line 675), scroll synchronization (line 683), the
loading-indicator position update (line 720) and the visible-part
render-range update (line 740) — is added to the single `rootSubscription`. -/
def initSubscriptions (root : RootSubscription) : RootSubscription :=
  (((root.add .windowResize).add .scrollSync).add .loadingIndicatorPosition).add
    .visiblePartRenderRange

/-- Modelled from the spec: rxjs `Subscription.unsubscribe` (external
library) — unsubscribing the aggregate subscription closes it, releasing
every child subscription added to it. -/
def RootSubscription.unsubscribe (root : RootSubscription) : RootSubscription :=
  { root with closed := true }

/-- `componentWillUnmount` (src lines 767-769): the single aggregate
unsubscribe. -/
def componentWillUnmount (root : RootSubscription) : RootSubscription :=
  root.unsubscribe

/-- Modelled from the spec: a subscribed callback may fire only while its
subscription is a child of the aggregate root subscription and the root has
not been unsubscribed ("no orphaned callbacks may fire afterward"). -/
def callbackMayFire (root : RootSubscription) (s : SignalSource) : Bool :=
  !root.closed && root.children.contains s

/-- The `rootSubscription` created at instance construction (src line 207). -/
def freshRootSubscription : RootSubscription := { closed := false, children := [] }

/-- C8: every subscription the table creates is added to the single
`rootSubscription`, and `componentWillUnmount`'s one aggregate unsubscribe
releases them all, so no subscribed callback can fire after teardown. -/
theorem c8_aggregate_unsubscribe :
    (∀ s : SignalSource, s ∈ (initSubscriptions freshRootSubscription).children) ∧
      (∀ s : SignalSource,
        callbackMayFire (componentWillUnmount (initSubscriptions freshRootSubscription)) s
          = false) := by
  constructor <;> intro s <;> cases s <;> decide

/-- The props of `EmptyTable` relevant to its rendered cell
(src/base-table/empty.tsx lines 16-22): `colSpan`, `isLoading` and the
optional `emptyCellHeight`. -/
structure EmptyTableProps where
  colSpan : Nat
  isLoading : Bool
  emptyCellHeight : Option Int
deriving Repr

/-- The observable shape of the single cell `EmptyTable` renders: whether the
`EmptyContent` wrapper is present, the cell's CSS height, and its HTML
`colSpan`. -/
structure EmptyTableCell where
  rendersEmptyContent : Bool
  height : Int
  colSpan : Nat
deriving DecidableEq, Repr

/-- `EmptyTable` (src/base-table/empty.tsx lines 24-53): `show = !isLoading`
(line 31); the single `td` has `colSpan = props.colSpan` (line 40) and
`height = emptyCellHeight ?? 200` (line 41); the `EmptyContent` wrapper is
rendered exactly when `show` holds (lines 43-47). -/
def EmptyTable (p : EmptyTableProps) : EmptyTableCell :=
  { rendersEmptyContent := !p.isLoading
    height := p.emptyCellHeight.getD 200
    colSpan := p.colSpan }

/-- C10: `EmptyTable` renders the empty-state content iff `isLoading` is
false; the cell's height is `emptyCellHeight` when provided and 200 pixels
otherwise; its `colSpan` equals the supplied `colSpan`. -/
theorem c10_empty_table (p : EmptyTableProps) :
    ((EmptyTable p).rendersEmptyContent = true ↔ p.isLoading = false) ∧
      (EmptyTable p).height
        = (match p.emptyCellHeight with
            | some h => h
            | none => 200) ∧
      (EmptyTable p).colSpan = p.colSpan := by
  refine ⟨?_, ?_, rfl⟩
  · cases hp : p.isLoading <;> simp [EmptyTable, hp]
  · cases hE : p.emptyCellHeight <;> simp [EmptyTable, hE]
